import Mathlib

/-!
Verification model of the timesync-api request handler.

The repository contains three variants of the same Cloudflare Pages function:
`src/functions/api.js` (luxon, extended field set, no structural timezone
pre-filter), `src/unnamed/part_000` (hand-rolled calendar math, structural
pre-filter) and `src/unnamed/part_001` (luxon, basic field set, structural
pre-filter).  All three share the cache-key builder, the response cache and
the fixed-window rate limiter verbatim.

JavaScript values are embedded as follows: numbers that hold epoch
milliseconds, counters or offsets are `Int` (all arithmetic in the source is
exact integer arithmetic, `Math.round`/`Math.floor` made explicit); strings
are `String`; `Map` is an association list with JavaScript `Map` get/set
semantics; the platform timezone database and the luxon/Intl formatting
primitives are parameters of the model.
-/

namespace TimeSync

/-! ## JavaScript string ordering

`Array.prototype.sort()` with no comparator sorts strings by UTF-16 code
units.  For the code points that occur here (all BMP) this is the
lexicographic order on the code points of the characters. -/

/-- Strict lexicographic order on character lists by code point, as used by
the default JavaScript string comparison. -/
def ltCharList : List Char → List Char → Bool
  | _, [] => false
  | [], _ :: _ => true
  | a :: as, b :: bs =>
    if a.toNat < b.toNat then true
    else if b.toNat < a.toNat then false
    else ltCharList as bs

/-- `a ≤ b` in the JavaScript string order. -/
def jsStrLe (a b : String) : Prop := ltCharList b.data a.data = false

instance : DecidableRel jsStrLe := fun a b => by unfold jsStrLe; infer_instance

@[simp] theorem ltCharList_nil_right (a : List Char) : ltCharList a [] = false := by
  cases a <;> rfl

@[simp] theorem ltCharList_nil_cons (y : Char) (ys : List Char) :
    ltCharList [] (y :: ys) = true := rfl

@[simp] theorem ltCharList_cons_cons (x : Char) (xs : List Char) (y : Char) (ys : List Char) :
    ltCharList (x :: xs) (y :: ys) =
      (if x.toNat < y.toNat then true
       else if y.toNat < x.toNat then false
       else ltCharList xs ys) := rfl

theorem char_eq_of_toNat_eq {a b : Char} (h : a.toNat = b.toNat) : a = b :=
  Char.eq_of_val_eq (UInt32.ext h)

theorem ltCharList_antisymm :
    ∀ a b, ltCharList a b = false → ltCharList b a = false → a = b := by
  intro a
  induction a with
  | nil =>
    intro b h _
    cases b with
    | nil => rfl
    | cons y ys => simp at h
  | cons x xs ih =>
    intro b h h'
    cases b with
    | nil => simp at h'
    | cons y ys =>
      simp only [ltCharList_cons_cons] at h h'
      by_cases h1 : x.toNat < y.toNat
      · simp [h1] at h
      · by_cases h2 : y.toNat < x.toNat
        · simp [h2] at h'
        · have hxy : x = y := char_eq_of_toNat_eq (by omega)
          simp only [h1, h2, if_false] at h h'
          rw [hxy, ih ys h h']

theorem ltCharList_asymm :
    ∀ a b, ltCharList a b = true → ltCharList b a = false := by
  intro a
  induction a with
  | nil =>
    intro b _
    simp
  | cons x xs ih =>
    intro b h
    cases b with
    | nil => simp at h
    | cons y ys =>
      simp only [ltCharList_cons_cons] at h ⊢
      by_cases h1 : x.toNat < y.toNat
      · have h2 : ¬ y.toNat < x.toNat := by omega
        simp [h1, h2]
      · by_cases h2 : y.toNat < x.toNat
        · simp [h1, h2] at h
        · simp only [h1, h2, if_false] at h ⊢
          exact ih ys h

theorem ltCharList_cotrans :
    ∀ a b c, ltCharList a c = true → ltCharList a b = true ∨ ltCharList b c = true := by
  intro a
  induction a with
  | nil =>
    intro b c h
    cases c with
    | nil => simp at h
    | cons z zs =>
      cases b with
      | nil => right; simp
      | cons y ys => left; simp
  | cons x xs ih =>
    intro b c h
    cases c with
    | nil => simp at h
    | cons z zs =>
      cases b with
      | nil => right; simp
      | cons y ys =>
        simp only [ltCharList_cons_cons] at h ⊢
        by_cases h1 : x.toNat < z.toNat
        · by_cases hxy : x.toNat < y.toNat
          · left; simp [hxy]
          · right
            have hyz : y.toNat < z.toNat := by omega
            simp [hyz]
        · by_cases h2 : z.toNat < x.toNat
          · simp [h1, h2] at h
          · simp only [h1, h2, if_false] at h
            by_cases hxy : x.toNat < y.toNat
            · left; simp [hxy]
            · by_cases hyx : y.toNat < x.toNat
              · right
                have hyz : y.toNat < z.toNat := by omega
                simp [hyz]
              · rcases ih ys zs h with h' | h'
                · left; simp [hxy, hyx, h']
                · right
                  have e1 : ¬ y.toNat < z.toNat := by omega
                  have e2 : ¬ z.toNat < y.toNat := by omega
                  simp [e1, e2, h']

instance : IsTotal String jsStrLe where
  total a b := by
    unfold jsStrLe
    cases h : ltCharList b.data a.data
    · left; rfl
    · right; exact ltCharList_asymm _ _ h

instance : IsTrans String jsStrLe where
  trans a b c hab hbc := by
    unfold jsStrLe at *
    cases hca : ltCharList c.data a.data
    · rfl
    · rcases ltCharList_cotrans c.data b.data a.data hca with h1 | h1
      · rw [hbc] at h1; exact absurd h1 (by simp)
      · rw [hab] at h1; exact absurd h1 (by simp)

instance : IsAntisymm String jsStrLe where
  antisymm a b hab hba := by
    have h := ltCharList_antisymm a.data b.data hba hab
    cases a
    cases b
    exact congrArg String.mk h

/-- `[...].sort()`: the JavaScript default sort.  The comparator is the total
order `jsStrLe`; for a total order the sorted result is unique, so any
correct sorting algorithm embeds it. -/
def jsSort (l : List String) : List String := List.insertionSort jsStrLe l

/-! ## JavaScript `Map` as an association list -/

/-- `map.get(k)` (and `map.has(k)` as `≠ none`). -/
def mapGet {α : Type} : List (String × α) → String → Option α
  | [], _ => none
  | (k', v') :: rest, k => if k' = k then some v' else mapGet rest k

/-- `map.set(k, v)`: replace in place if the key is present, else append. -/
def mapSet {α : Type} : List (String × α) → String → α → List (String × α)
  | [], k, v => [(k, v)]
  | (k', v') :: rest, k, v =>
    if k' = k then (k, v) :: rest else (k', v') :: mapSet rest k v

/-! ## Cache-key builder (`generateCacheKey`, identical in all variants) -/

/-- `url.searchParams.get(k)`: the first value recorded for `k`, or `null`. -/
def searchParamsGet (params : List (String × String)) (k : String) : Option String :=
  (params.find? (fun p => p.1 = k)).map (·.2)

/-- `generateCacheKey(url)` over the parsed query-parameter list of `url`:
`[...params.keys()].sort()` lists every parameter name once per occurrence,
sorts them, and joins `key=params.get(key)` pairs with `&`. -/
def generateCacheKey (params : List (String × String)) : String :=
  let sortedKeys := jsSort (params.map (·.1))
  String.intercalate "&"
    (sortedKeys.map (fun k => k ++ "=" ++ ((searchParamsGet params k).getD "")))

/-! ## Decimal rendering and padding

`String(n)` on a nonnegative integer renders the usual decimal numeral;
`.padStart(2, '0')` left-pads with zeros to length 2. -/

/-- The decimal digit character for `n < 10`. -/
def digitChar (n : Nat) : Char := Char.ofNat (48 + n)

/-- Digits of `n` (most significant first), empty for `n = 0`; fuel-driven so
that it reduces in the kernel (the fuel is always sufficient at `fuel = n`). -/
def natDigits : Nat → Nat → List Char
  | 0, _ => []
  | fuel + 1, n => if n = 0 then [] else natDigits fuel (n / 10) ++ [digitChar (n % 10)]

/-- `String(n)` for a nonnegative integer `n`. -/
def jsNatStr (n : Nat) : String := if n = 0 then "0" else String.mk (natDigits n n)

/-- `s.padStart(2, '0')`. -/
def padStart2 (s : String) : String :=
  if 2 ≤ s.length then s else if s.length = 1 then "0" ++ s else "00"

theorem natDigits_zero (fuel : Nat) : natDigits fuel 0 = [] := by
  cases fuel <;> simp [natDigits]

theorem natDigits_len_pos :
    ∀ fuel n, 0 < n → n ≤ fuel → 0 < (natDigits fuel n).length := by
  intro fuel
  induction fuel with
  | zero => intro n h h'; omega
  | succ f ih =>
    intro n h _
    have hn : ¬ n = 0 := by omega
    simp [natDigits, hn]

theorem jsNatStr_len_one {n : Nat} (h : n < 10) : (jsNatStr n).length = 1 := by
  interval_cases n <;> rfl

theorem natDigits_len_ge_two (fuel n : Nat) (h : 10 ≤ n) (h' : n ≤ fuel) :
    2 ≤ (natDigits fuel n).length := by
  cases fuel with
  | zero => omega
  | succ f =>
    simp only [natDigits]
    rw [if_neg (by omega : ¬ n = 0)]
    rw [List.length_append]
    have h1 : 0 < n / 10 := Nat.div_pos h (by norm_num)
    have := natDigits_len_pos f (n / 10) h1 (by omega)
    simp only [List.length_singleton]
    omega

theorem jsNatStr_len_ge_two {n : Nat} (h : 10 ≤ n) : 2 ≤ (jsNatStr n).length := by
  unfold jsNatStr
  rw [if_neg (by omega : ¬ n = 0)]
  have := natDigits_len_ge_two n n h (le_refl n)
  simpa [String.length] using this

/-- `String(n).padStart(2, '0')` agrees with the spec's reading
"`n` zero-padded to two digits". -/
theorem padStart2_jsNatStr (n : Nat) :
    padStart2 (jsNatStr n) = if n < 10 then "0" ++ jsNatStr n else jsNatStr n := by
  by_cases h : n < 10
  · rw [if_pos h]
    unfold padStart2
    rw [jsNatStr_len_one h]
    norm_num
  · rw [if_neg h]
    unfold padStart2
    rw [if_pos (jsNatStr_len_ge_two (by omega))]

/-! ## `calculateUTCOffset` (src/unnamed/part_000 lines 195–205,
src/unnamed/part_001 lines 173–180)

Both variants build the string from the offset-in-minutes integer; the
offset itself comes from the platform timezone database
(`getTimezoneOffsetInMinutes` / luxon `.offset`) and is a parameter here. -/

/-- `calculateUTCOffset`: sign from `offsetInMinutes >= 0`, then
`String(Math.floor(abs / 60)).padStart(2, '0')`, `":"`,
`String(abs % 60).padStart(2, '0')`. -/
def calculateUTCOffset (offsetInMinutes : Int) : String :=
  let sign := if 0 ≤ offsetInMinutes then "+" else "-"
  let absOffset := offsetInMinutes.natAbs
  let hours := padStart2 (jsNatStr (absOffset / 60))
  let minutes := padStart2 (jsNatStr (absOffset % 60))
  "UTC" ++ sign ++ hours ++ ":" ++ minutes

/-- The spec's own wording of the `UTC±HH:MM` format: sign by `offset ≥ 0`,
`floor(|offset| / 60)` and `|offset| mod 60`, each zero-padded to two
digits. -/
def specUTCOffsetFormat (offset : Int) : String :=
  let hh := offset.natAbs / 60
  let mm := offset.natAbs % 60
  "UTC" ++ (if 0 ≤ offset then "+" else "-")
    ++ (if hh < 10 then "0" ++ jsNatStr hh else jsNatStr hh)
    ++ ":"
    ++ (if mm < 10 then "0" ++ jsNatStr mm else jsNatStr mm)

/-! ## Structural timezone pattern
(src/unnamed/part_000 line 107, src/unnamed/part_001 line 93)

The regular expression `^[A-Za-z_]+\/[A-Za-z_]+(?:\/[A-Za-z_]+)*$` accepts
exactly the strings whose `'/'`-separated segments number at least two and
are each nonempty and made of ASCII letters and underscores. -/

/-- A character matched by `[A-Za-z_]`. -/
def isTzChar (c : Char) : Bool :=
  (65 ≤ c.toNat && c.toNat ≤ 90) || (97 ≤ c.toNat && c.toNat ≤ 122) || c.toNat = 95

/-- Split a character list at `'/'` (every occurrence separates; empty
segments are kept, mirroring how the regex sees them). -/
def splitSlash : List Char → List (List Char)
  | [] => [[]]
  | c :: cs =>
    if c = '/' then [] :: splitSlash cs
    else
      match splitSlash cs with
      | [] => [[c]]
      | s :: ss => (c :: s) :: ss

/-- `timezonePattern.test(timezone)`. -/
def testTimezoneFormat (s : String) : Bool :=
  let segs := splitSlash s.data
  2 ≤ segs.length && segs.all (fun seg => !seg.isEmpty && seg.all isTzChar)

/-! ## ECMAScript `Date` model

A `Date` is its epoch-millisecond value (`Int`).  The proleptic Gregorian
field extraction used by `getUTC*` is the standard civil-calendar
conversion; `Date.UTC` and `setUTCDate` are the inverse direction.
All divisions are floor divisions as in the ECMAScript specification. -/

/-- Calendar date. -/
structure CivilDate where
  year : Int
  month : Int
  day : Int
deriving DecidableEq

/-- Days since 1970-01-01 of the civil date `(y, m, d)` (month `1..12`). -/
def daysFromCivil (y m d : Int) : Int :=
  let y1 := if m ≤ 2 then y - 1 else y
  let era := Int.fdiv (if 0 ≤ y1 then y1 else y1 - 399) 400
  let yoe := y1 - era * 400
  let mp := if 2 < m then m - 3 else m + 9
  let doy := Int.fdiv (153 * mp + 2) 5 + d - 1
  let doe := yoe * 365 + Int.fdiv yoe 4 - Int.fdiv yoe 100 + doy
  era * 146097 + doe - 719468

/-- Civil date of the day `z` days after 1970-01-01. -/
def civilFromDays (z : Int) : CivilDate :=
  let z1 := z + 719468
  let era := Int.fdiv (if 0 ≤ z1 then z1 else z1 - 146096) 146097
  let doe := z1 - era * 146097
  let yoe := Int.fdiv (doe - Int.fdiv doe 1460 + Int.fdiv doe 36524 - Int.fdiv doe 146096) 365
  let y := yoe + era * 400
  let doy := doe - (365 * yoe + Int.fdiv yoe 4 - Int.fdiv yoe 100)
  let mp := Int.fdiv (5 * doy + 2) 153
  let d := doy - Int.fdiv (153 * mp + 2) 5 + 1
  let m := if mp < 10 then mp + 3 else mp - 9
  { year := if m ≤ 2 then y + 1 else y, month := m, day := d }

/-- Whole days since the epoch of an epoch-millisecond value. -/
def epochDays (t : Int) : Int := Int.fdiv t 86400000

/-- Milliseconds past UTC midnight. -/
def msOfDay (t : Int) : Int := Int.emod t 86400000

/-- `date.getUTCDay()`: `0` = Sunday … `6` = Saturday
(1970-01-01 was a Thursday, day `4`). -/
def getUTCDay (t : Int) : Int := Int.emod (epochDays t + 4) 7

/-- `date.getUTCFullYear()`. -/
def getUTCFullYear (t : Int) : Int := (civilFromDays (epochDays t)).year

/-- `date.getUTCDate()`. -/
def getUTCDate (t : Int) : Int := (civilFromDays (epochDays t)).day

/-- `date.setUTCDate(n)`: replace the day-of-month by `n` (out-of-range
values roll over into adjacent months, per `MakeDay`), keeping the
time of day. -/
def setUTCDate (t : Int) (n : Int) : Int :=
  let c := civilFromDays (epochDays t)
  (daysFromCivil c.year c.month 1 + (n - 1)) * 86400000 + msOfDay t

/-- `Date.UTC(y, monthIndex, d)` at UTC midnight (`monthIndex` `0`-based;
years `100..9999`, the two-digit-year rewrite does not apply here). -/
def jsDateUTC (y monthIndex d : Int) : Int :=
  daysFromCivil y (monthIndex + 1) d * 86400000

/-- `Math.round (num / den)` for `den > 0`: the ECMAScript rounding (ties
toward `+∞`) of the exact rational `num / den`. -/
def mathRound (num den : Int) : Int := Int.fdiv (2 * num + den) (2 * den)

/-! ## `getLocalISOString` round-trip and `getISOWeekNumber`
(src/unnamed/part_000 lines 259–279 and 298–316)

`getLocalISOString(date, tz)` renders the UTC fields of
`date.getTime() + offset*60000` at second precision and appends the signed
`±HH:MM` offset suffix.  `getISOWeekNumber` then parses that string with
`new Date(...)`, and ECMAScript date-time parsing honours the offset
suffix: the parsed epoch is the rendered fields re-interpreted in the
given offset.  The composition is embedded here as one function on epoch
milliseconds (valid for `|offset| < 6000` minutes, i.e. every real
timezone, where the rendered `HH` keeps two digits). -/

/-- `new Date(getLocalISOString(date, timezone)).getTime()` for a platform
offset of `offsetMin` minutes: render the civil fields of
`t + offsetMin*60000` (seconds truncated), then undo the offset suffix. -/
def parseLocalISOString (t offsetMin : Int) : Int :=
  let lt := t + offsetMin * 60000
  let c := civilFromDays (epochDays lt)
  let ms := msOfDay lt
  let h := Int.fdiv ms 3600000
  let mi := Int.fdiv (Int.emod ms 3600000) 60000
  let s := Int.fdiv (Int.emod ms 60000) 1000
  daysFromCivil c.year c.month c.day * 86400000
    + (h * 3600000 + mi * 60000 + s * 1000) - offsetMin * 60000

/-- `getISOWeekNumber(date, timezone)` with the platform offset for
`timezone` at `date` given as `offsetMin`. -/
def getISOWeekNumber (t offsetMin : Int) : Int :=
  let localDate := parseLocalISOString t offsetMin
  let dayNumber := Int.emod (getUTCDay localDate + 6) 7
  let localDate1 := setUTCDate localDate (getUTCDate localDate + 4 - dayNumber)
  let week1a := jsDateUTC (getUTCFullYear localDate1) 0 4
  let week1 := setUTCDate week1a
    (getUTCDate week1a + 3 - Int.emod (getUTCDay week1a + 6) 7)
  1 + mathRound
    (localDate1 - week1 + (Int.emod (getUTCDay week1 + 6) 7 - 3) * 86400000)
    604800000

/-- Modelled from the spec: the ISO 8601 week number of a civil date —
weeks run Monday–Sunday and week 1 is the week containing the year's first
Thursday (equivalently, the week of a date is the week of its nearest
Thursday, numbered within that Thursday's year). -/
def specISOWeek (y m d : Int) : Int :=
  let z := daysFromCivil y m d
  let dow := Int.emod (z + 3) 7 + 1
  let thursday := z + (4 - dow)
  let ty := (civilFromDays thursday).year
  let jan1 := daysFromCivil ty 1 1
  Int.fdiv (thursday - jan1) 7 + 1

/-! ## Luxon model (src/functions/api.js lines 104–124)

A luxon `DateTime` pairs the represented instant with the zone's offset at
that instant; `DateTime.utc()` captures the clock in UTC, `setZone`
changes the zone but not the instant, and `diff` subtracts instants. -/

namespace Luxon

/-- A luxon `DateTime`: an instant plus the zone offset in minutes. -/
structure DateTime where
  instant : Int
  offset : Int
deriving DecidableEq

/-- `DateTime.utc()` at clock reading `now`. -/
def utc (now : Int) : DateTime := { instant := now, offset := 0 }

/-- `dt.setZone(zone)` where the zone's offset at `dt`'s instant is
`zoneOffset`: the instant is unchanged. -/
def setZone (dt : DateTime) (zoneOffset : Int) : DateTime :=
  { instant := dt.instant, offset := zoneOffset }

/-- `a.diff(b).toMillis()`. -/
def diffMillis (a b : DateTime) : Int := a.instant - b.instant

end Luxon

/-- The `duration_since_utc` field of the luxon extended variant:
`Duration.fromObject({milliseconds: localNow.diff(utcNow).toMillis()}).toHuman()`,
with the locale-dependent `toHuman` rendering a parameter. -/
def duration_since_utc (toHuman : Int → String) (now zoneOffset : Int) : String :=
  let utcNow := Luxon.utc now
  let localNow := Luxon.setZone utcNow zoneOffset
  toHuman (Luxon.diffMillis localNow utcNow)

/-! ## Request handler (`onRequest`)

The handler is embedded twice: `ApiJs.onRequest` for
`src/functions/api.js` (no structural pre-filter) and `PreF.onRequest` for
`src/unnamed/part_000` / `src/unnamed/part_001` (structural pre-filter
between the presence and the membership check); everything else is shared
verbatim between the source variants.  The model is parametric in the
payload type and in `compute`, the body of the `try` block (a platform
call: it reads the clock again and queries Intl/luxon; `none` models a
thrown error).  `JSON.stringify(response, null, 2)` is deterministic, so
payload equality of two responses is byte-equality of their serialized
bodies. -/

/-- One response-cache entry: `{ response, timestamp }`. -/
structure CacheEntry (Payload : Type) where
  response : Payload
  timestamp : Int
deriving DecidableEq

/-- One rate-limit record: `{ count, last }`. -/
structure RateData where
  count : Int
  last : Int
deriving DecidableEq

/-- The two process-wide maps. -/
structure ServerState (Payload : Type) where
  responseCache : List (String × CacheEntry Payload)
  rateLimitMap : List (String × RateData)
deriving DecidableEq

/-- An incoming request: the method, the parsed query parameters of
`request.url` in order, and the `CF-Connecting-IP` header. -/
structure Request where
  method : String
  params : List (String × String)
  ipHeader : Option String
deriving DecidableEq

/-- A response body: empty (preflight), a success payload (serialized with
`JSON.stringify(payload, null, 2)`), or an error object
`{"error": msg}`. -/
inductive Body (Payload : Type) where
  | empty : Body Payload
  | json : Payload → Body Payload
  | jsonError : String → Body Payload
deriving DecidableEq

/-- An HTTP response. -/
structure Response (Payload : Type) where
  status : Int
  headers : List (String × String)
  body : Body Payload
deriving DecidableEq

def corsHeaders : List (String × String) :=
  [("Access-Control-Allow-Origin", "*"),
   ("Access-Control-Allow-Methods", "GET, OPTIONS"),
   ("Access-Control-Allow-Headers", "Content-Type")]

def errorHeaders : List (String × String) :=
  ("Content-Type", "application/json") :: corsHeaders

def successHeaders : List (String × String) :=
  ("Content-Type", "application/json") :: ("Cache-Control", "public, max-age=1")
    :: corsHeaders

def missingTimezoneMsg : String := "Missing 'timezone' query parameter."

def invalidFormatMsg : String :=
  "Invalid timezone format. Please provide a valid IANA timezone identifier."

def invalidTimezoneMsg (tz : String) : String :=
  "Invalid timezone '" ++ tz ++ "'. Please provide a valid IANA timezone identifier."

def rateLimitedMsg : String := "Rate limit exceeded. Please try again later."

def internalErrorMsg : String := "Internal Server Error. Please try again later."

def RATE_LIMIT_WINDOW_MS : Int := 60 * 1000

def RATE_LIMIT_MAX_REQUESTS : Int := 100

/-- Outcome of the rate-limit block on one record:
whether the request is admitted and the record afterwards. -/
structure RateOutcome where
  admitted : Bool
  data : RateData
deriving DecidableEq

/-- The per-record logic of the rate-limit block: inside the window the
count is incremented and the request rejected when it exceeds the
threshold; an elapsed window resets the count to 1 and restarts at
`currentTime`. -/
def rateLimitStep (rateData : RateData) (currentTime : Int) : RateOutcome :=
  if currentTime - rateData.last < RATE_LIMIT_WINDOW_MS then
    let c := rateData.count + 1
    { admitted := !(RATE_LIMIT_MAX_REQUESTS < c),
      data := { count := c, last := rateData.last } }
  else
    { admitted := true, data := { count := 1, last := currentTime } }

/-- `request.headers.get('CF-Connecting-IP') || 'unknown'`
(an empty header value is falsy). -/
def clientIp (ipHeader : Option String) : String :=
  match ipHeader with
  | none => "unknown"
  | some s => if s = "" then "unknown" else s

/-- The whole rate-limit block: `.ok` carries the map after an admitted
request, `.error` the map after a rejected one.  On rejection the source
returns before `rateLimitMap.set`, but `rateData.count += 1` has already
mutated the object stored in the map — visible exactly when the client
already had an entry. -/
def rateLimitGate (rlMap : List (String × RateData)) (ipHeader : Option String)
    (currentTime : Int) :
    Except (List (String × RateData)) (List (String × RateData)) :=
  let ip := clientIp ipHeader
  let stored := mapGet rlMap ip
  let rateData := stored.getD { count := 0, last := currentTime }
  let o := rateLimitStep rateData currentTime
  if o.admitted then .ok (mapSet rlMap ip o.data)
  else
    .error (match stored with
            | some _ => mapSet rlMap ip o.data
            | none => rlMap)

namespace ApiJs

/-- Lines 80–147 of `src/functions/api.js`: parameter presence check
(`!timezone` is true for a missing and for an empty value), membership
check, then the `try` block computing, caching and returning the payload. -/
def validateAndCompute {P : Type} (compute : String → Option P)
    (validTimezones : List String) (cache : List (String × CacheEntry P))
    (rlMap : List (String × RateData)) (params : List (String × String))
    (cacheKey : String) (currentTime : Int) : Response P × ServerState P :=
  let tzv := searchParamsGet params "timezone"
  match tzv with
  | none =>
    ({ status := 400, headers := errorHeaders, body := .jsonError missingTimezoneMsg },
     { responseCache := cache, rateLimitMap := rlMap })
  | some tz =>
    if tz = "" then
      ({ status := 400, headers := errorHeaders, body := .jsonError missingTimezoneMsg },
       { responseCache := cache, rateLimitMap := rlMap })
    else if validTimezones.contains tz then
      match compute tz with
      | some payload =>
        ({ status := 200, headers := successHeaders, body := .json payload },
         { responseCache := mapSet cache cacheKey
             { response := payload, timestamp := currentTime },
           rateLimitMap := rlMap })
      | none =>
        ({ status := 500, headers := errorHeaders, body := .jsonError internalErrorMsg },
         { responseCache := cache, rateLimitMap := rlMap })
    else
      ({ status := 400, headers := errorHeaders, body := .jsonError (invalidTimezoneMsg tz) },
       { responseCache := cache, rateLimitMap := rlMap })

/-- `onRequest` of `src/functions/api.js`. -/
def onRequest {P : Type} (compute : String → Option P) (validTimezones : List String)
    (state : ServerState P) (req : Request) (currentTime : Int) :
    Response P × ServerState P :=
  if req.method = "OPTIONS" then
    ({ status := 204, headers := corsHeaders, body := .empty }, state)
  else
    let cacheKey := generateCacheKey req.params
    let hit : Option (CacheEntry P) :=
      match mapGet state.responseCache cacheKey with
      | some entry => if currentTime - entry.timestamp ≤ 1000 then some entry else none
      | none => none
    match hit with
    | some entry =>
      ({ status := 200, headers := successHeaders, body := .json entry.response }, state)
    | none =>
      match rateLimitGate state.rateLimitMap req.ipHeader currentTime with
      | .error rlMap =>
        ({ status := 429, headers := errorHeaders, body := .jsonError rateLimitedMsg },
         { responseCache := state.responseCache, rateLimitMap := rlMap })
      | .ok rlMap =>
        validateAndCompute compute validTimezones state.responseCache rlMap
          req.params cacheKey currentTime

end ApiJs

namespace PreF

/-- Lines 91–186 of `src/unnamed/part_000` (and 80–154 of
`src/unnamed/part_001`): as in `ApiJs.validateAndCompute` but with the
structural format check between the presence and the membership check. -/
def validateAndCompute {P : Type} (compute : String → Option P)
    (validTimezones : List String) (cache : List (String × CacheEntry P))
    (rlMap : List (String × RateData)) (params : List (String × String))
    (cacheKey : String) (currentTime : Int) : Response P × ServerState P :=
  let tzv := searchParamsGet params "timezone"
  match tzv with
  | none =>
    ({ status := 400, headers := errorHeaders, body := .jsonError missingTimezoneMsg },
     { responseCache := cache, rateLimitMap := rlMap })
  | some tz =>
    if tz = "" then
      ({ status := 400, headers := errorHeaders, body := .jsonError missingTimezoneMsg },
       { responseCache := cache, rateLimitMap := rlMap })
    else if testTimezoneFormat tz = false then
      ({ status := 400, headers := errorHeaders, body := .jsonError invalidFormatMsg },
       { responseCache := cache, rateLimitMap := rlMap })
    else if validTimezones.contains tz then
      match compute tz with
      | some payload =>
        ({ status := 200, headers := successHeaders, body := .json payload },
         { responseCache := mapSet cache cacheKey
             { response := payload, timestamp := currentTime },
           rateLimitMap := rlMap })
      | none =>
        ({ status := 500, headers := errorHeaders, body := .jsonError internalErrorMsg },
         { responseCache := cache, rateLimitMap := rlMap })
    else
      ({ status := 400, headers := errorHeaders, body := .jsonError (invalidTimezoneMsg tz) },
       { responseCache := cache, rateLimitMap := rlMap })

/-- `onRequest` of `src/unnamed/part_000` and `src/unnamed/part_001`. -/
def onRequest {P : Type} (compute : String → Option P) (validTimezones : List String)
    (state : ServerState P) (req : Request) (currentTime : Int) :
    Response P × ServerState P :=
  if req.method = "OPTIONS" then
    ({ status := 204, headers := corsHeaders, body := .empty }, state)
  else
    let cacheKey := generateCacheKey req.params
    let hit : Option (CacheEntry P) :=
      match mapGet state.responseCache cacheKey with
      | some entry => if currentTime - entry.timestamp ≤ 1000 then some entry else none
      | none => none
    match hit with
    | some entry =>
      ({ status := 200, headers := successHeaders, body := .json entry.response }, state)
    | none =>
      match rateLimitGate state.rateLimitMap req.ipHeader currentTime with
      | .error rlMap =>
        ({ status := 429, headers := errorHeaders, body := .jsonError rateLimitedMsg },
         { responseCache := state.responseCache, rateLimitMap := rlMap })
      | .ok rlMap =>
        validateAndCompute compute validTimezones state.responseCache rlMap
          req.params cacheKey currentTime

end PreF

/-! ## Map lemmas -/

theorem mapGet_mapSet_self {α : Type} (m : List (String × α)) (k : String) (v : α) :
    mapGet (mapSet m k v) k = some v := by
  induction m with
  | nil => simp [mapGet, mapSet]
  | cons p rest ih =>
    obtain ⟨k', v'⟩ := p
    by_cases h : k' = k
    · simp [mapGet, mapSet, h]
    · simp [mapGet, mapSet, h, ih]

theorem mapGet_mapSet_other {α : Type} (m : List (String × α)) (k k' : String) (v : α)
    (h : k' ≠ k) : mapGet (mapSet m k v) k' = mapGet m k' := by
  have hk : ¬ k = k' := fun hh => h hh.symm
  induction m with
  | nil => simp [mapGet, mapSet, hk]
  | cons p rest ih =>
    obtain ⟨k0, v0⟩ := p
    by_cases h0 : k0 = k
    · subst h0
      simp [mapGet, mapSet, hk]
    · simp only [mapSet, if_neg h0, mapGet]
      by_cases h1 : k0 = k'
      · simp [h1]
      · simp [h1, ih]

/-! ## Rate limiter: claim C1 -/

/-- Requests from one client at one instant, starting from no record:
the record after `n` admitted-path requests. -/
def iterateRate : Nat → Int → RateData
  | 0, t => { count := 0, last := t }
  | n + 1, t => (rateLimitStep (iterateRate n t) t).data

theorem ApiJs.validateAndCompute_status {P : Type} (compute : String → Option P)
    (vt : List String) (cache : List (String × CacheEntry P))
    (rlMap : List (String × RateData)) (params : List (String × String))
    (key : String) (now : Int) :
    (ApiJs.validateAndCompute compute vt cache rlMap params key now).1.status = 400 ∨
    (ApiJs.validateAndCompute compute vt cache rlMap params key now).1.status = 200 ∨
    (ApiJs.validateAndCompute compute vt cache rlMap params key now).1.status = 500 := by
  unfold ApiJs.validateAndCompute
  rcases searchParamsGet params "timezone" with _ | tz
  · simp
  · by_cases h1 : tz = "" <;> by_cases h2 : tz ∈ vt <;>
      rcases hc : compute tz with _ | p <;> simp [h1, h2, hc]

theorem ApiJs.validateAndCompute_rlMap {P : Type} (compute : String → Option P)
    (vt : List String) (cache : List (String × CacheEntry P))
    (rlMap : List (String × RateData)) (params : List (String × String))
    (key : String) (now : Int) :
    (ApiJs.validateAndCompute compute vt cache rlMap params key now).2.rateLimitMap = rlMap := by
  unfold ApiJs.validateAndCompute
  rcases searchParamsGet params "timezone" with _ | tz
  · rfl
  · by_cases h1 : tz = "" <;> by_cases h2 : tz ∈ vt <;>
      rcases hc : compute tz with _ | p <;> simp [h1, h2, hc]

theorem rateLimitGate_present (rlMap : List (String × RateData)) (ipHeader : Option String)
    (now : Int) (d : RateData) (hip : mapGet rlMap (clientIp ipHeader) = some d) :
    rateLimitGate rlMap ipHeader now =
      if (rateLimitStep d now).admitted
      then .ok (mapSet rlMap (clientIp ipHeader) (rateLimitStep d now).data)
      else .error (mapSet rlMap (clientIp ipHeader) (rateLimitStep d now).data) := by
  simp only [rateLimitGate, hip, Option.getD_some]

theorem rateLimitStep_window (d : RateData) (now : Int) (h : now - d.last < 60000) :
    rateLimitStep d now =
      { admitted := !(100 < d.count + 1),
        data := { count := d.count + 1, last := d.last } } := by
  simp only [rateLimitStep, RATE_LIMIT_WINDOW_MS, RATE_LIMIT_MAX_REQUESTS]
  rw [if_pos (by omega)]

theorem rateLimitStep_elapsed (d : RateData) (now : Int) (h : 60000 ≤ now - d.last) :
    rateLimitStep d now = { admitted := true, data := { count := 1, last := now } } := by
  simp only [rateLimitStep, RATE_LIMIT_WINDOW_MS, RATE_LIMIT_MAX_REQUESTS]
  rw [if_neg (by omega)]

theorem iterateRate_count (n : Nat) : iterateRate n 0 = { count := (n : Int), last := 0 } := by
  induction n with
  | zero => rfl
  | succ k ih =>
    show (rateLimitStep (iterateRate k 0) 0).data = _
    rw [ih, rateLimitStep_window { count := (k : Int), last := 0 } 0 (by norm_num)]
    simp only [RateData.mk.injEq, and_true]
    push_cast
    ring

/-- C1: on the admitted path (no preflight, no fresh cache entry), a request
inside the client's window increments the stored count and is rejected with
the 429 rate-limit body exactly when the incremented count exceeds 100; a
request at or past the window end resets the record to count 1 at `now` and
is admitted whatever the prior count was.  Concretely, of 101 same-window
requests from one new client the first 100 are admitted and the 101st is
rejected. -/
theorem C1_rate_limiter {P : Type} (compute : String → Option P)
    (vt : List String) (state : ServerState P) (req : Request)
    (now count last : Int)
    (hm : ¬ req.method = "OPTIONS")
    (hmiss : ∀ e, mapGet state.responseCache (generateCacheKey req.params) = some e →
      ¬ (now - e.timestamp ≤ 1000))
    (hip : mapGet state.rateLimitMap (clientIp req.ipHeader) =
      some { count := count, last := last }) :
    (now - last < 60000 →
      mapGet (ApiJs.onRequest compute vt state req now).2.rateLimitMap
          (clientIp req.ipHeader) = some { count := count + 1, last := last } ∧
      ((ApiJs.onRequest compute vt state req now).1 =
          { status := 429, headers := errorHeaders, body := .jsonError rateLimitedMsg }
        ↔ 100 < count + 1)) ∧
    (60000 ≤ now - last →
      mapGet (ApiJs.onRequest compute vt state req now).2.rateLimitMap
          (clientIp req.ipHeader) = some { count := 1, last := now } ∧
      ¬ (ApiJs.onRequest compute vt state req now).1.status = 429) ∧
    ((rateLimitStep (iterateRate 100 0) 0).admitted = false ∧
     (rateLimitStep (iterateRate 99 0) 0).admitted = true) := by
  have hcache : (match mapGet state.responseCache (generateCacheKey req.params) with
      | some entry => if now - entry.timestamp ≤ 1000 then some entry else none
      | none => none) = (none : Option (CacheEntry P)) := by
    rcases hc : mapGet state.responseCache (generateCacheKey req.params) with _ | e
    · rfl
    · simp [hmiss e hc]
  refine ⟨?_, ?_, ?_⟩
  · intro hwin
    unfold ApiJs.onRequest
    rw [if_neg hm]
    simp only [hcache]
    rw [rateLimitGate_present _ _ _ _ hip, rateLimitStep_window _ _ hwin]
    by_cases hth : (100 : Int) < count + 1
    · rw [if_neg (by simp [hth])]
      refine ⟨by simp [mapGet_mapSet_self], by simp [hth]⟩
    · rw [if_pos (by simp [hth])]
      constructor
      · rw [ApiJs.validateAndCompute_rlMap, mapGet_mapSet_self]
      · constructor
        · intro h429
          rcases ApiJs.validateAndCompute_status compute vt state.responseCache
              (mapSet state.rateLimitMap (clientIp req.ipHeader)
                { count := count + 1, last := last })
              req.params (generateCacheKey req.params) now with h | h | h <;>
            · rw [h429] at h
              exact absurd h (by simp)
        · intro h
          exact absurd h hth
  · intro helapsed
    unfold ApiJs.onRequest
    rw [if_neg hm]
    simp only [hcache]
    rw [rateLimitGate_present _ _ _ _ hip, rateLimitStep_elapsed _ _ helapsed]
    rw [if_pos rfl]
    constructor
    · rw [ApiJs.validateAndCompute_rlMap, mapGet_mapSet_self]
    · intro h429
      rcases ApiJs.validateAndCompute_status compute vt state.responseCache
          (mapSet state.rateLimitMap (clientIp req.ipHeader) { count := 1, last := now })
          req.params (generateCacheKey req.params) now with h | h | h <;>
        · rw [h429] at h
          exact absurd h (by simp)
  · constructor
    · rw [iterateRate_count 100, rateLimitStep_window _ _ (by norm_num)]
      simp
    · rw [iterateRate_count 99, rateLimitStep_window _ _ (by norm_num)]
      simp

/-- C1 witness: a client with a stored count of 100 inside its window is
rejected on the next request; with the window elapsed the same client is
admitted. -/
theorem C1_rate_limiter_witness :
    (ApiJs.onRequest (fun _ => some ()) ["Pacific/Auckland"]
        { responseCache := [], rateLimitMap := [("1.2.3.4", { count := 100, last := 0 })] }
        { method := "GET", params := [("timezone", "Pacific/Auckland")],
          ipHeader := some "1.2.3.4" } 10).1 =
      { status := 429, headers := errorHeaders, body := .jsonError rateLimitedMsg } ∧
    ¬ (ApiJs.onRequest (fun _ => some ()) ["Pacific/Auckland"]
        { responseCache := [], rateLimitMap := [("1.2.3.4", { count := 100, last := 0 })] }
        { method := "GET", params := [("timezone", "Pacific/Auckland")],
          ipHeader := some "1.2.3.4" } 60000).1.status = 429 := by
  have h1 := C1_rate_limiter (P := Unit) (fun _ => some ()) ["Pacific/Auckland"]
    { responseCache := [], rateLimitMap := [("1.2.3.4", { count := 100, last := 0 })] }
    { method := "GET", params := [("timezone", "Pacific/Auckland")],
      ipHeader := some "1.2.3.4" }
    10 100 0 (by decide) (fun e he => by simp [mapGet] at he) (by decide)
  have h2 := C1_rate_limiter (P := Unit) (fun _ => some ()) ["Pacific/Auckland"]
    { responseCache := [], rateLimitMap := [("1.2.3.4", { count := 100, last := 0 })] }
    { method := "GET", params := [("timezone", "Pacific/Auckland")],
      ipHeader := some "1.2.3.4" }
    60000 100 0 (by decide) (fun e he => by simp [mapGet] at he) (by decide)
  exact ⟨(h1.1 (by norm_num)).2.mpr (by norm_num), (h2.2.1 (by norm_num)).2⟩

/-! ## Cache behaviour: hit and miss lemmas -/

theorem ApiJs.onRequest_hit_api {P : Type} (compute : String → Option P) (vt : List String)
    (state : ServerState P) (req : Request) (now : Int) (e : CacheEntry P)
    (hm : ¬ req.method = "OPTIONS")
    (he : mapGet state.responseCache (generateCacheKey req.params) = some e)
    (hf : now - e.timestamp ≤ 1000) :
    ApiJs.onRequest compute vt state req now =
      ({ status := 200, headers := successHeaders, body := .json e.response }, state) := by
  unfold ApiJs.onRequest
  rw [if_neg hm]
  simp only [he, if_pos hf]

theorem PreF.onRequest_hit_pref {P : Type} (compute : String → Option P) (vt : List String)
    (state : ServerState P) (req : Request) (now : Int) (e : CacheEntry P)
    (hm : ¬ req.method = "OPTIONS")
    (he : mapGet state.responseCache (generateCacheKey req.params) = some e)
    (hf : now - e.timestamp ≤ 1000) :
    PreF.onRequest compute vt state req now =
      ({ status := 200, headers := successHeaders, body := .json e.response }, state) := by
  unfold PreF.onRequest
  rw [if_neg hm]
  simp only [he, if_pos hf]

theorem ApiJs.onRequest_miss_api {P : Type} (compute : String → Option P) (vt : List String)
    (state : ServerState P) (req : Request) (now : Int)
    (hm : ¬ req.method = "OPTIONS")
    (hmiss : ∀ e, mapGet state.responseCache (generateCacheKey req.params) = some e →
      ¬ (now - e.timestamp ≤ 1000)) :
    ApiJs.onRequest compute vt state req now =
      match rateLimitGate state.rateLimitMap req.ipHeader now with
      | .error rlMap =>
        ({ status := 429, headers := errorHeaders, body := .jsonError rateLimitedMsg },
         { responseCache := state.responseCache, rateLimitMap := rlMap })
      | .ok rlMap =>
        ApiJs.validateAndCompute compute vt state.responseCache rlMap req.params
          (generateCacheKey req.params) now := by
  have hcache : (match mapGet state.responseCache (generateCacheKey req.params) with
      | some entry => if now - entry.timestamp ≤ 1000 then some entry else none
      | none => none) = (none : Option (CacheEntry P)) := by
    rcases hc : mapGet state.responseCache (generateCacheKey req.params) with _ | e
    · rfl
    · simp [hmiss e hc]
  unfold ApiJs.onRequest
  rw [if_neg hm]
  simp only [hcache]

theorem PreF.onRequest_miss_pref {P : Type} (compute : String → Option P) (vt : List String)
    (state : ServerState P) (req : Request) (now : Int)
    (hm : ¬ req.method = "OPTIONS")
    (hmiss : ∀ e, mapGet state.responseCache (generateCacheKey req.params) = some e →
      ¬ (now - e.timestamp ≤ 1000)) :
    PreF.onRequest compute vt state req now =
      match rateLimitGate state.rateLimitMap req.ipHeader now with
      | .error rlMap =>
        ({ status := 429, headers := errorHeaders, body := .jsonError rateLimitedMsg },
         { responseCache := state.responseCache, rateLimitMap := rlMap })
      | .ok rlMap =>
        PreF.validateAndCompute compute vt state.responseCache rlMap req.params
          (generateCacheKey req.params) now := by
  have hcache : (match mapGet state.responseCache (generateCacheKey req.params) with
      | some entry => if now - entry.timestamp ≤ 1000 then some entry else none
      | none => none) = (none : Option (CacheEntry P)) := by
    rcases hc : mapGet state.responseCache (generateCacheKey req.params) with _ | e
    · rfl
    · simp [hmiss e hc]
  unfold PreF.onRequest
  rw [if_neg hm]
  simp only [hcache]

theorem ApiJs.validateAndCompute_cases_api {P : Type} (compute : String → Option P)
    (vt : List String) (cache : List (String × CacheEntry P))
    (rlMap : List (String × RateData)) (params : List (String × String))
    (key : String) (now : Int) :
    ((ApiJs.validateAndCompute compute vt cache rlMap params key now).2.responseCache = cache ∧
     ¬ (ApiJs.validateAndCompute compute vt cache rlMap params key now).1.status = 200) ∨
    (∃ tz p, searchParamsGet params "timezone" = some tz ∧ compute tz = some p ∧
      (ApiJs.validateAndCompute compute vt cache rlMap params key now).1 =
        { status := 200, headers := successHeaders, body := .json p } ∧
      (ApiJs.validateAndCompute compute vt cache rlMap params key now).2.responseCache =
        mapSet cache key { response := p, timestamp := now }) := by
  unfold ApiJs.validateAndCompute
  rcases hz : searchParamsGet params "timezone" with _ | tz
  · left; simp
  · by_cases h1 : tz = ""
    · left; simp [h1]
    · by_cases h2 : tz ∈ vt
      · rcases hc : compute tz with _ | p
        · left; simp [h1, h2, hc]
        · right
          exact ⟨tz, p, rfl, hc, by simp [h1, h2, hc], by simp [h1, h2, hc]⟩
      · left; simp [h1, h2]

theorem PreF.validateAndCompute_cases_pref {P : Type} (compute : String → Option P)
    (vt : List String) (cache : List (String × CacheEntry P))
    (rlMap : List (String × RateData)) (params : List (String × String))
    (key : String) (now : Int) :
    ((PreF.validateAndCompute compute vt cache rlMap params key now).2.responseCache = cache ∧
     ¬ (PreF.validateAndCompute compute vt cache rlMap params key now).1.status = 200) ∨
    (∃ tz p, searchParamsGet params "timezone" = some tz ∧ compute tz = some p ∧
      (PreF.validateAndCompute compute vt cache rlMap params key now).1 =
        { status := 200, headers := successHeaders, body := .json p } ∧
      (PreF.validateAndCompute compute vt cache rlMap params key now).2.responseCache =
        mapSet cache key { response := p, timestamp := now }) := by
  unfold PreF.validateAndCompute
  rcases hz : searchParamsGet params "timezone" with _ | tz
  · left; simp
  · by_cases h1 : tz = ""
    · left; simp [h1]
    · by_cases h3 : testTimezoneFormat tz = false
      · left; simp [h1, h3]
      · by_cases h2 : tz ∈ vt
        · rcases hc : compute tz with _ | p
          · left; simp [h1, h3, h2, hc]
          · right
            exact ⟨tz, p, rfl, hc, by simp [h1, h3, h2, hc], by simp [h1, h3, h2, hc]⟩
        · left; simp [h1, h3, h2]

/-- C2: the lookup is a hit exactly on a present, at-most-1000 ms-old entry.
A hit answers 200 with the stored payload and changes nothing.  A stale
entry is not consulted — the handler proceeds exactly as it would on an
absent key (rate limit, validation, computation) — and it is not deleted:
afterwards the key still holds the old entry unless this very request
succeeded and overwrote it with the freshly computed payload at `now`. -/
theorem C2_cache_freshness {P : Type} (compute : String → Option P) (vt : List String)
    (state : ServerState P) (req : Request) (now : Int) (e : CacheEntry P)
    (hm : ¬ req.method = "OPTIONS")
    (he : mapGet state.responseCache (generateCacheKey req.params) = some e) :
    (now - e.timestamp ≤ 1000 →
      ApiJs.onRequest compute vt state req now =
        ({ status := 200, headers := successHeaders, body := .json e.response }, state) ∧
      PreF.onRequest compute vt state req now =
        ({ status := 200, headers := successHeaders, body := .json e.response }, state)) ∧
    (¬ (now - e.timestamp ≤ 1000) →
      (ApiJs.onRequest compute vt state req now =
        match rateLimitGate state.rateLimitMap req.ipHeader now with
        | .error rlMap =>
          ({ status := 429, headers := errorHeaders, body := .jsonError rateLimitedMsg },
           { responseCache := state.responseCache, rateLimitMap := rlMap })
        | .ok rlMap =>
          ApiJs.validateAndCompute compute vt state.responseCache rlMap req.params
            (generateCacheKey req.params) now) ∧
      (PreF.onRequest compute vt state req now =
        match rateLimitGate state.rateLimitMap req.ipHeader now with
        | .error rlMap =>
          ({ status := 429, headers := errorHeaders, body := .jsonError rateLimitedMsg },
           { responseCache := state.responseCache, rateLimitMap := rlMap })
        | .ok rlMap =>
          PreF.validateAndCompute compute vt state.responseCache rlMap req.params
            (generateCacheKey req.params) now) ∧
      (mapGet (ApiJs.onRequest compute vt state req now).2.responseCache
          (generateCacheKey req.params) = some e ∨
        ∃ tz p, searchParamsGet req.params "timezone" = some tz ∧ compute tz = some p ∧
          (ApiJs.onRequest compute vt state req now).1.status = 200 ∧
          mapGet (ApiJs.onRequest compute vt state req now).2.responseCache
            (generateCacheKey req.params) = some { response := p, timestamp := now }) ∧
      (mapGet (PreF.onRequest compute vt state req now).2.responseCache
          (generateCacheKey req.params) = some e ∨
        ∃ tz p, searchParamsGet req.params "timezone" = some tz ∧ compute tz = some p ∧
          (PreF.onRequest compute vt state req now).1.status = 200 ∧
          mapGet (PreF.onRequest compute vt state req now).2.responseCache
            (generateCacheKey req.params) = some { response := p, timestamp := now })) := by
  constructor
  · intro hf
    exact ⟨ApiJs.onRequest_hit_api compute vt state req now e hm he hf,
           PreF.onRequest_hit_pref compute vt state req now e hm he hf⟩
  · intro hstale
    have hmiss : ∀ e', mapGet state.responseCache (generateCacheKey req.params) = some e' →
        ¬ (now - e'.timestamp ≤ 1000) := by
      intro e' he'
      rw [he] at he'
      cases he'
      exact hstale
    have hA := ApiJs.onRequest_miss_api compute vt state req now hm hmiss
    have hB := PreF.onRequest_miss_pref compute vt state req now hm hmiss
    refine ⟨hA, hB, ?_, ?_⟩
    · rw [hA]
      rcases hg : rateLimitGate state.rateLimitMap req.ipHeader now with rl | rl
      · left; simpa using he
      · rcases ApiJs.validateAndCompute_cases_api compute vt state.responseCache rl req.params
            (generateCacheKey req.params) now with ⟨hc, _⟩ | ⟨tz, p, htz, hp, hr, hc⟩
        · left; simpa [hc] using he
        · right
          exact ⟨tz, p, htz, hp, by simp [hr], by simp [hc, mapGet_mapSet_self]⟩
    · rw [hB]
      rcases hg : rateLimitGate state.rateLimitMap req.ipHeader now with rl | rl
      · left; simpa using he
      · rcases PreF.validateAndCompute_cases_pref compute vt state.responseCache rl req.params
            (generateCacheKey req.params) now with ⟨hc, _⟩ | ⟨tz, p, htz, hp, hr, hc⟩
        · left; simpa [hc] using he
        · right
          exact ⟨tz, p, htz, hp, by simp [hr], by simp [hc, mapGet_mapSet_self]⟩

/-- C2 witness: a request 500 ms after the entry was stored is answered from
the cache; the stored payload is returned verbatim. -/
theorem C2_cache_freshness_witness :
    ApiJs.onRequest (fun _ => some false) ["Pacific/Auckland"]
      { responseCache := [("timezone=Pacific/Auckland",
          { response := true, timestamp := 0 })], rateLimitMap := [] }
      { method := "GET", params := [("timezone", "Pacific/Auckland")], ipHeader := none }
      500 =
    ({ status := 200, headers := successHeaders, body := .json true },
     { responseCache := [("timezone=Pacific/Auckland",
         { response := true, timestamp := 0 })], rateLimitMap := [] }) := by
  have h := C2_cache_freshness (fun _ => some false) ["Pacific/Auckland"]
    { responseCache := [("timezone=Pacific/Auckland",
        { response := true, timestamp := 0 })], rateLimitMap := [] }
    { method := "GET", params := [("timezone", "Pacific/Auckland")], ipHeader := none }
    500 { response := true, timestamp := 0 } (by decide) (by decide)
  exact (h.1 (by norm_num)).1

/-- C3: a request whose key has a fresh (≤ 1000 ms) cache entry is answered
with the cached payload and leaves the rate-limit map untouched — it is
never answered 429, whatever the client's stored count. -/
theorem C3_cache_hit_bypasses_rate_limit {P : Type} (compute : String → Option P)
    (vt : List String) (state : ServerState P) (req : Request) (now : Int)
    (e : CacheEntry P)
    (hm : ¬ req.method = "OPTIONS")
    (he : mapGet state.responseCache (generateCacheKey req.params) = some e)
    (hf : now - e.timestamp ≤ 1000) :
    ((ApiJs.onRequest compute vt state req now).1 =
       { status := 200, headers := successHeaders, body := .json e.response } ∧
     (ApiJs.onRequest compute vt state req now).2 = state ∧
     ¬ (ApiJs.onRequest compute vt state req now).1.status = 429) ∧
    ((PreF.onRequest compute vt state req now).1 =
       { status := 200, headers := successHeaders, body := .json e.response } ∧
     (PreF.onRequest compute vt state req now).2 = state ∧
     ¬ (PreF.onRequest compute vt state req now).1.status = 429) := by
  have hA := ApiJs.onRequest_hit_api compute vt state req now e hm he hf
  have hB := PreF.onRequest_hit_pref compute vt state req now e hm he hf
  exact ⟨⟨by rw [hA], by rw [hA], by rw [hA]; simp⟩,
         ⟨by rw [hB], by rw [hB], by rw [hB]; simp⟩⟩

/-- C3 witness: the client's stored count is 1000 — far over the threshold —
yet the fresh cache entry is served with 200 and the rate map is not
touched. -/
theorem C3_cache_hit_bypasses_rate_limit_witness :
    (ApiJs.onRequest (fun _ => some false) ["Pacific/Auckland"]
      { responseCache := [("timezone=Pacific/Auckland",
          { response := true, timestamp := 0 })],
        rateLimitMap := [("unknown", { count := 1000, last := 0 })] }
      { method := "GET", params := [("timezone", "Pacific/Auckland")], ipHeader := none }
      900).1 =
      { status := 200, headers := successHeaders, body := .json true } ∧
    (ApiJs.onRequest (fun _ => some false) ["Pacific/Auckland"]
      { responseCache := [("timezone=Pacific/Auckland",
          { response := true, timestamp := 0 })],
        rateLimitMap := [("unknown", { count := 1000, last := 0 })] }
      { method := "GET", params := [("timezone", "Pacific/Auckland")], ipHeader := none }
      900).2.rateLimitMap = [("unknown", { count := 1000, last := 0 })] := by
  have h := C3_cache_hit_bypasses_rate_limit (fun _ => some false) ["Pacific/Auckland"]
    { responseCache := [("timezone=Pacific/Auckland",
        { response := true, timestamp := 0 })],
      rateLimitMap := [("unknown", { count := 1000, last := 0 })] }
    { method := "GET", params := [("timezone", "Pacific/Auckland")], ipHeader := none }
    900 { response := true, timestamp := 0 } (by decide) (by decide) (by norm_num)
  exact ⟨h.1.1, by rw [h.1.2.1]⟩

/-! ## Cache written only on success: claim C9 -/

theorem ApiJs.onRequest_cache_cases_api {P : Type} (compute : String → Option P)
    (vt : List String) (state : ServerState P) (req : Request) (now : Int) :
    (ApiJs.onRequest compute vt state req now).2.responseCache = state.responseCache ∨
    ∃ tz p, searchParamsGet req.params "timezone" = some tz ∧ compute tz = some p ∧
      (ApiJs.onRequest compute vt state req now).1.status = 200 ∧
      (ApiJs.onRequest compute vt state req now).1.body = .json p ∧
      (ApiJs.onRequest compute vt state req now).2.responseCache =
        mapSet state.responseCache (generateCacheKey req.params)
          { response := p, timestamp := now } := by
  by_cases hm : req.method = "OPTIONS"
  · left
    simp [ApiJs.onRequest, hm]
  · rcases hc : mapGet state.responseCache (generateCacheKey req.params) with _ | e
    · have h := ApiJs.onRequest_miss_api compute vt state req now hm
        (fun e' he' => by rw [hc] at he'; cases he')
      rw [h]
      rcases rateLimitGate state.rateLimitMap req.ipHeader now with rl | rl
      · left; rfl
      · rcases ApiJs.validateAndCompute_cases_api compute vt state.responseCache rl req.params
            (generateCacheKey req.params) now with ⟨hcc, _⟩ | ⟨tz, p, htz, hp, hr, hcc⟩
        · left; exact hcc
        · right; exact ⟨tz, p, htz, hp, by simp [hr], by simp [hr], hcc⟩
    · by_cases hf : now - e.timestamp ≤ 1000
      · left
        rw [ApiJs.onRequest_hit_api compute vt state req now e hm hc hf]
      · have h := ApiJs.onRequest_miss_api compute vt state req now hm
          (fun e' he' => by rw [hc] at he'; cases he'; exact hf)
        rw [h]
        rcases rateLimitGate state.rateLimitMap req.ipHeader now with rl | rl
        · left; rfl
        · rcases ApiJs.validateAndCompute_cases_api compute vt state.responseCache rl req.params
              (generateCacheKey req.params) now with ⟨hcc, _⟩ | ⟨tz, p, htz, hp, hr, hcc⟩
          · left; exact hcc
          · right; exact ⟨tz, p, htz, hp, by simp [hr], by simp [hr], hcc⟩

theorem PreF.onRequest_cache_cases_pref {P : Type} (compute : String → Option P)
    (vt : List String) (state : ServerState P) (req : Request) (now : Int) :
    (PreF.onRequest compute vt state req now).2.responseCache = state.responseCache ∨
    ∃ tz p, searchParamsGet req.params "timezone" = some tz ∧ compute tz = some p ∧
      (PreF.onRequest compute vt state req now).1.status = 200 ∧
      (PreF.onRequest compute vt state req now).1.body = .json p ∧
      (PreF.onRequest compute vt state req now).2.responseCache =
        mapSet state.responseCache (generateCacheKey req.params)
          { response := p, timestamp := now } := by
  by_cases hm : req.method = "OPTIONS"
  · left
    simp [PreF.onRequest, hm]
  · rcases hc : mapGet state.responseCache (generateCacheKey req.params) with _ | e
    · have h := PreF.onRequest_miss_pref compute vt state req now hm
        (fun e' he' => by rw [hc] at he'; cases he')
      rw [h]
      rcases rateLimitGate state.rateLimitMap req.ipHeader now with rl | rl
      · left; rfl
      · rcases PreF.validateAndCompute_cases_pref compute vt state.responseCache rl req.params
            (generateCacheKey req.params) now with ⟨hcc, _⟩ | ⟨tz, p, htz, hp, hr, hcc⟩
        · left; exact hcc
        · right; exact ⟨tz, p, htz, hp, by simp [hr], by simp [hr], hcc⟩
    · by_cases hf : now - e.timestamp ≤ 1000
      · left
        rw [PreF.onRequest_hit_pref compute vt state req now e hm hc hf]
      · have h := PreF.onRequest_miss_pref compute vt state req now hm
          (fun e' he' => by rw [hc] at he'; cases he'; exact hf)
        rw [h]
        rcases rateLimitGate state.rateLimitMap req.ipHeader now with rl | rl
        · left; rfl
        · rcases PreF.validateAndCompute_cases_pref compute vt state.responseCache rl req.params
              (generateCacheKey req.params) now with ⟨hcc, _⟩ | ⟨tz, p, htz, hp, hr, hcc⟩
          · left; exact hcc
          · right; exact ⟨tz, p, htz, hp, by simp [hr], by simp [hr], hcc⟩

/-- C9: the response cache is written only on the success path — any request
whose response status is not 200 leaves the cache untouched, and the only
possible write is the freshly computed payload of this request, stored under
the request's key with a 200 response; consequently a fresh cache hit always
yields a 200 with a stored (previously computed) payload, never an error
body. -/
theorem C9_cache_written_only_on_success {P : Type} (compute : String → Option P)
    (vt : List String) (state : ServerState P) (req : Request) (now : Int) :
    (¬ (ApiJs.onRequest compute vt state req now).1.status = 200 →
      (ApiJs.onRequest compute vt state req now).2.responseCache = state.responseCache) ∧
    (¬ (PreF.onRequest compute vt state req now).1.status = 200 →
      (PreF.onRequest compute vt state req now).2.responseCache = state.responseCache) ∧
    ((ApiJs.onRequest compute vt state req now).2.responseCache = state.responseCache ∨
      ∃ tz p, searchParamsGet req.params "timezone" = some tz ∧ compute tz = some p ∧
        (ApiJs.onRequest compute vt state req now).1.status = 200 ∧
        (ApiJs.onRequest compute vt state req now).1.body = .json p ∧
        (ApiJs.onRequest compute vt state req now).2.responseCache =
          mapSet state.responseCache (generateCacheKey req.params)
            { response := p, timestamp := now }) ∧
    ((PreF.onRequest compute vt state req now).2.responseCache = state.responseCache ∨
      ∃ tz p, searchParamsGet req.params "timezone" = some tz ∧ compute tz = some p ∧
        (PreF.onRequest compute vt state req now).1.status = 200 ∧
        (PreF.onRequest compute vt state req now).1.body = .json p ∧
        (PreF.onRequest compute vt state req now).2.responseCache =
          mapSet state.responseCache (generateCacheKey req.params)
            { response := p, timestamp := now }) ∧
    (∀ e, mapGet state.responseCache (generateCacheKey req.params) = some e →
      now - e.timestamp ≤ 1000 → ¬ req.method = "OPTIONS" →
      (ApiJs.onRequest compute vt state req now).1.status = 200 ∧
      (ApiJs.onRequest compute vt state req now).1.body = .json e.response ∧
      (PreF.onRequest compute vt state req now).1.status = 200 ∧
      (PreF.onRequest compute vt state req now).1.body = .json e.response) := by
  refine ⟨?_, ?_, ApiJs.onRequest_cache_cases_api compute vt state req now,
    PreF.onRequest_cache_cases_pref compute vt state req now, ?_⟩
  · intro hs
    rcases ApiJs.onRequest_cache_cases_api compute vt state req now with h | ⟨_, _, _, _, h200, _, _⟩
    · exact h
    · exact absurd h200 hs
  · intro hs
    rcases PreF.onRequest_cache_cases_pref compute vt state req now with h | ⟨_, _, _, _, h200, _, _⟩
    · exact h
    · exact absurd h200 hs
  · intro e he hf hm
    rw [ApiJs.onRequest_hit_api compute vt state req now e hm he hf,
        PreF.onRequest_hit_pref compute vt state req now e hm he hf]
    exact ⟨rfl, rfl, rfl, rfl⟩

/-- C9 witness: a missing-parameter request (status 400) leaves the cache
exactly as it was. -/
theorem C9_cache_written_only_on_success_witness :
    (ApiJs.onRequest (P := Unit) (fun _ => some ()) ["Pacific/Auckland"]
      { responseCache := [("k", { response := (), timestamp := 0 })], rateLimitMap := [] }
      { method := "GET", params := [], ipHeader := none } 5).2.responseCache =
      [("k", { response := (), timestamp := 0 })] := by
  have h := C9_cache_written_only_on_success (P := Unit) (fun _ => some ())
    ["Pacific/Auckland"]
    { responseCache := [("k", { response := (), timestamp := 0 })], rateLimitMap := [] }
    { method := "GET", params := [], ipHeader := none } 5
  exact h.1 (by decide)

/-! ## Validation errors: claims C7 and C8 -/

theorem ApiJs.onRequest_admitted_api {P : Type} (compute : String → Option P)
    (vt : List String) (state : ServerState P) (req : Request) (now : Int)
    (rl : List (String × RateData))
    (hm : ¬ req.method = "OPTIONS")
    (hmiss : ∀ e, mapGet state.responseCache (generateCacheKey req.params) = some e →
      ¬ (now - e.timestamp ≤ 1000))
    (hadm : rateLimitGate state.rateLimitMap req.ipHeader now = .ok rl) :
    ApiJs.onRequest compute vt state req now =
      ApiJs.validateAndCompute compute vt state.responseCache rl req.params
        (generateCacheKey req.params) now := by
  rw [ApiJs.onRequest_miss_api compute vt state req now hm hmiss, hadm]

theorem PreF.onRequest_admitted_pref {P : Type} (compute : String → Option P)
    (vt : List String) (state : ServerState P) (req : Request) (now : Int)
    (rl : List (String × RateData))
    (hm : ¬ req.method = "OPTIONS")
    (hmiss : ∀ e, mapGet state.responseCache (generateCacheKey req.params) = some e →
      ¬ (now - e.timestamp ≤ 1000))
    (hadm : rateLimitGate state.rateLimitMap req.ipHeader now = .ok rl) :
    PreF.onRequest compute vt state req now =
      PreF.validateAndCompute compute vt state.responseCache rl req.params
        (generateCacheKey req.params) now := by
  rw [PreF.onRequest_miss_pref compute vt state req now hm hmiss, hadm]

/-- C7 counterexample: in the variant without the structural pre-filter a
present-but-empty `timezone` parameter that is not in the supported set is
answered with the missing-parameter body, not the invalid-timezone body the
claim prescribes for present-but-unsupported values (`!timezone` is true for
the empty string). -/
theorem C7_counterexample :
    (ApiJs.onRequest (P := Unit) (fun _ => some ()) ["Pacific/Auckland"]
      { responseCache := [], rateLimitMap := [] }
      { method := "GET", params := [("timezone", "")], ipHeader := none } 0).1 =
      { status := 400, headers := errorHeaders, body := .jsonError missingTimezoneMsg } ∧
    searchParamsGet [("timezone", "")] "timezone" = some "" ∧
    ¬ ("" ∈ (["Pacific/Auckland"] : List String)) ∧
    ¬ missingTimezoneMsg = invalidTimezoneMsg "" := by decide

theorem ApiJs.validateAndCompute_missing_api {P : Type} (compute : String → Option P)
    (vt : List String) (cache : List (String × CacheEntry P))
    (rlMap : List (String × RateData)) (params : List (String × String))
    (key : String) (now : Int)
    (h : searchParamsGet params "timezone" = none ∨
         searchParamsGet params "timezone" = some "") :
    (ApiJs.validateAndCompute compute vt cache rlMap params key now).1 =
      { status := 400, headers := errorHeaders, body := .jsonError missingTimezoneMsg } := by
  unfold ApiJs.validateAndCompute
  rcases h with h | h <;> simp [h]

theorem PreF.validateAndCompute_missing_pref {P : Type} (compute : String → Option P)
    (vt : List String) (cache : List (String × CacheEntry P))
    (rlMap : List (String × RateData)) (params : List (String × String))
    (key : String) (now : Int)
    (h : searchParamsGet params "timezone" = none ∨
         searchParamsGet params "timezone" = some "") :
    (PreF.validateAndCompute compute vt cache rlMap params key now).1 =
      { status := 400, headers := errorHeaders, body := .jsonError missingTimezoneMsg } := by
  unfold PreF.validateAndCompute
  rcases h with h | h <;> simp [h]

/-- C7 amended: on the admitted, non-cache-hit path, an absent **or empty**
`timezone` parameter draws the missing-parameter 400; a present, nonempty
value that is not in the supported set (after passing the structural check,
in the pre-filtering variants) draws the invalid-timezone 400 echoing the
value; the checks run in the order presence, then format, then membership,
each short-circuiting the rest. -/
theorem C7_validation_order {P : Type} (compute : String → Option P)
    (vt : List String) (state : ServerState P) (req : Request) (now : Int)
    (rl : List (String × RateData))
    (hm : ¬ req.method = "OPTIONS")
    (hmiss : ∀ e, mapGet state.responseCache (generateCacheKey req.params) = some e →
      ¬ (now - e.timestamp ≤ 1000))
    (hadm : rateLimitGate state.rateLimitMap req.ipHeader now = .ok rl) :
    ((searchParamsGet req.params "timezone" = none ∨
      searchParamsGet req.params "timezone" = some "") →
      (ApiJs.onRequest compute vt state req now).1 =
        { status := 400, headers := errorHeaders, body := .jsonError missingTimezoneMsg } ∧
      (PreF.onRequest compute vt state req now).1 =
        { status := 400, headers := errorHeaders, body := .jsonError missingTimezoneMsg }) ∧
    (∀ tz, searchParamsGet req.params "timezone" = some tz → ¬ tz = "" → ¬ tz ∈ vt →
      (ApiJs.onRequest compute vt state req now).1 =
        { status := 400, headers := errorHeaders,
          body := .jsonError (invalidTimezoneMsg tz) }) ∧
    (∀ tz, searchParamsGet req.params "timezone" = some tz → ¬ tz = "" →
      testTimezoneFormat tz = false →
      (PreF.onRequest compute vt state req now).1 =
        { status := 400, headers := errorHeaders, body := .jsonError invalidFormatMsg }) ∧
    (∀ tz, searchParamsGet req.params "timezone" = some tz → ¬ tz = "" →
      testTimezoneFormat tz = true → ¬ tz ∈ vt →
      (PreF.onRequest compute vt state req now).1 =
        { status := 400, headers := errorHeaders,
          body := .jsonError (invalidTimezoneMsg tz) }) := by
  have hA := ApiJs.onRequest_admitted_api compute vt state req now rl hm hmiss hadm
  have hB := PreF.onRequest_admitted_pref compute vt state req now rl hm hmiss hadm
  refine ⟨?_, ?_, ?_, ?_⟩
  · intro h
    rw [hA, hB]
    exact ⟨ApiJs.validateAndCompute_missing_api compute vt state.responseCache rl req.params
             (generateCacheKey req.params) now h,
           PreF.validateAndCompute_missing_pref compute vt state.responseCache rl req.params
             (generateCacheKey req.params) now h⟩
  · intro tz htz hne hmem
    rw [hA]
    unfold ApiJs.validateAndCompute
    simp [htz, hne, hmem]
  · intro tz htz hne hfmt
    rw [hB]
    unfold PreF.validateAndCompute
    simp [htz, hne, hfmt]
  · intro tz htz hne hfmt hmem
    rw [hB]
    unfold PreF.validateAndCompute
    simp [htz, hne, hfmt, hmem]

/-- C7 witness: on a fresh state, `?timezone=Mars/Phobos` is admitted and
answered with the invalid-timezone message echoing the value. -/
theorem C7_validation_order_witness :
    (ApiJs.onRequest (P := Unit) (fun _ => some ()) ["Pacific/Auckland"]
      { responseCache := [], rateLimitMap := [] }
      { method := "GET", params := [("timezone", "Mars/Phobos")], ipHeader := none } 0).1 =
      { status := 400, headers := errorHeaders,
        body := .jsonError (invalidTimezoneMsg "Mars/Phobos") } := by
  have h := C7_validation_order (P := Unit) (fun _ => some ()) ["Pacific/Auckland"]
    { responseCache := [], rateLimitMap := [] }
    { method := "GET", params := [("timezone", "Mars/Phobos")], ipHeader := none } 0
    [("unknown", { count := 1, last := 0 })]
    (by decide) (fun e he => by simp [mapGet] at he) (by rfl)
  exact h.2.1 "Mars/Phobos" (by decide) (by decide) (by decide)

theorem splitSlash_no_slash :
    ∀ l : List Char, (∀ c ∈ l, ¬ c = '/') → splitSlash l = [l] := by
  intro l h
  induction l with
  | nil => rfl
  | cons c cs ih =>
    simp only [splitSlash]
    rw [if_neg (h c (by simp))]
    rw [ih (fun c' hc' => h c' (by simp [hc']))]

/-- C8 counterexample: a present-but-empty `timezone` value does not match
the structural pattern, yet the pre-filtering handler answers it with the
missing-parameter body, not the invalid-format body. -/
theorem C8_counterexample :
    testTimezoneFormat "" = false ∧
    (PreF.onRequest (P := Unit) (fun _ => some ()) ["Pacific/Auckland"]
      { responseCache := [], rateLimitMap := [] }
      { method := "GET", params := [("timezone", "")], ipHeader := none } 0).1.body =
      .jsonError missingTimezoneMsg ∧
    ¬ missingTimezoneMsg = invalidFormatMsg := by decide

/-- C8 amended: in the pre-filtering variants, every admitted non-cache-hit
request whose timezone value is **nonempty** and fails the
`Region/City(/Subregion)*` pattern is answered with the invalid-format 400,
whatever the supported-timezone set contains; the pattern indeed rejects
every slash-free identifier, in particular "UTC" and "GMT". -/
theorem C8_structural_prefilter {P : Type} (compute : String → Option P)
    (vt : List String) (state : ServerState P) (req : Request) (now : Int)
    (rl : List (String × RateData)) (tz : String)
    (hm : ¬ req.method = "OPTIONS")
    (hmiss : ∀ e, mapGet state.responseCache (generateCacheKey req.params) = some e →
      ¬ (now - e.timestamp ≤ 1000))
    (hadm : rateLimitGate state.rateLimitMap req.ipHeader now = .ok rl)
    (htz : searchParamsGet req.params "timezone" = some tz)
    (hne : ¬ tz = "")
    (hbad : testTimezoneFormat tz = false) :
    (PreF.onRequest compute vt state req now).1 =
      { status := 400, headers := errorHeaders, body := .jsonError invalidFormatMsg } ∧
    testTimezoneFormat "UTC" = false ∧
    testTimezoneFormat "GMT" = false ∧
    (∀ s : String, (∀ c ∈ s.data, ¬ c = '/') → testTimezoneFormat s = false) := by
  refine ⟨?_, by decide, by decide, ?_⟩
  · rw [PreF.onRequest_admitted_pref compute vt state req now rl hm hmiss hadm]
    unfold PreF.validateAndCompute
    simp [htz, hne, hbad]
  · intro s hs
    unfold testTimezoneFormat
    rw [splitSlash_no_slash s.data hs]
    simp

/-- C8 witness: `?timezone=UTC` is answered with the invalid-format message
even though the supported set contains "UTC". -/
theorem C8_structural_prefilter_witness :
    (PreF.onRequest (P := Unit) (fun _ => some ()) ["UTC", "Pacific/Auckland"]
      { responseCache := [], rateLimitMap := [] }
      { method := "GET", params := [("timezone", "UTC")], ipHeader := none } 0).1 =
      { status := 400, headers := errorHeaders, body := .jsonError invalidFormatMsg } := by
  have h := C8_structural_prefilter (P := Unit) (fun _ => some ())
    ["UTC", "Pacific/Auckland"]
    { responseCache := [], rateLimitMap := [] }
    { method := "GET", params := [("timezone", "UTC")], ipHeader := none } 0
    [("unknown", { count := 1, last := 0 })] "UTC"
    (by decide) (fun e he => by simp [mapGet] at he) (by rfl)
    (by decide) (by decide) (by decide)
  exact h.1

/-! ## ISO week number: claim C4

Epoch 1735686000000 is 2024-12-31T23:00:00Z — the spec's named example; with
the Pacific/Auckland summer offset of +780 minutes the local date is
2025-01-01 and the handler reports week 1 as required (the UTC date
2024-12-31 also lies in ISO week 1 of 2025, so the example cannot tell the
two apart).  Epoch 1735513200000 is 2024-12-29T23:00:00Z: the local date
is Monday 2024-12-30, ISO week 1 of 2025 — but `new Date(localISOString)`
parses the rendered offset suffix and lands back on the original instant,
so the code computes the week of the UTC date, Sunday 2024-12-29, and
reports 52. -/

/-- C4: `getISOWeekNumber` reproduces the spec's named example but computes
the ISO week of the UTC date, not of the local wall-clock date: at
2024-12-29T23:00:00Z with offset +780 the local date is 2024-12-30 whose
ISO week is 1, yet the function returns 52 (the week of 2024-12-29), because
the round-trip through the offset-suffixed ISO string returns the original
instant unchanged. -/
theorem C4_iso_week_uses_utc_date :
    getISOWeekNumber 1735686000000 780 = 1 ∧
    specISOWeek 2025 1 1 = 1 ∧
    getISOWeekNumber 1735513200000 780 = 52 ∧
    parseLocalISOString 1735513200000 780 = 1735513200000 ∧
    civilFromDays (epochDays (1735513200000 + 780 * 60000)) =
      { year := 2024, month := 12, day := 30 } ∧
    specISOWeek 2024 12 30 = 1 ∧
    civilFromDays (epochDays 1735513200000) = { year := 2024, month := 12, day := 29 } ∧
    specISOWeek 2024 12 29 = 52 := by decide

/-! ## Cache key builder: claim C5 -/

/-- C5 counterexample: `[...params.keys()]` lists a name once per
occurrence, so two queries with the same *set* of names and the same first
values can produce different keys when a name is repeated. -/
theorem C5_counterexample :
    ¬ generateCacheKey [("a", "1")] = generateCacheKey [("a", "1"), ("a", "1")] ∧
    (([("a", "1"), ("a", "1")] : List (String × String)).map Prod.fst).dedup =
      (([("a", "1")] : List (String × String)).map Prod.fst).dedup ∧
    searchParamsGet [("a", "1")] "a" = searchParamsGet [("a", "1"), ("a", "1")] "a" ∧
    generateCacheKey [("a", "1"), ("a", "1")] = "a=1&a=1" := by decide

theorem jsSort_eq_of_perm {l1 l2 : List String} (h : l1.Perm l2) : jsSort l1 = jsSort l2 :=
  List.eq_of_perm_of_sorted
    ((List.perm_insertionSort _ l1).trans (h.trans (List.perm_insertionSort _ l2).symm))
    (List.sorted_insertionSort _ l1) (List.sorted_insertionSort _ l2)

/-- C5 amended: the key is determined by the *multiset* of parameter names
together with the first value of each name: queries whose name lists are
permutations of one another with equal first values yield identical keys,
and the key is the sorted name list joined as `name=firstValue` pairs with
`&`. -/
theorem C5_cache_key_order_invariant (l1 l2 : List (String × String))
    (hp : (l1.map Prod.fst).Perm (l2.map Prod.fst))
    (hg : ∀ k ∈ l1.map Prod.fst, searchParamsGet l1 k = searchParamsGet l2 k) :
    generateCacheKey l1 = generateCacheKey l2 ∧
    ∃ names : List String, names.Perm (l1.map Prod.fst) ∧ List.Sorted jsStrLe names ∧
      generateCacheKey l1 = String.intercalate "&"
        (names.map (fun k => k ++ "=" ++ ((searchParamsGet l1 k).getD ""))) := by
  constructor
  · simp only [generateCacheKey]
    rw [jsSort_eq_of_perm hp]
    refine congrArg (String.intercalate "&") (List.map_congr_left ?_)
    intro k hk
    have hk1 : k ∈ l1.map Prod.fst :=
      hp.mem_iff.mpr ((List.perm_insertionSort jsStrLe (l2.map Prod.fst)).mem_iff.mp hk)
    rw [hg k hk1]
  · exact ⟨jsSort (l1.map Prod.fst), List.perm_insertionSort _ _,
      List.sorted_insertionSort _ _, rfl⟩

/-- C5 witness: the spec's own example pair of queries. -/
theorem C5_cache_key_order_invariant_witness :
    generateCacheKey [("timezone", "A"), ("format", "B")] =
      generateCacheKey [("format", "B"), ("timezone", "A")] ∧
    generateCacheKey [("timezone", "A"), ("format", "B")] = "format=B&timezone=A" := by
  have h := C5_cache_key_order_invariant [("timezone", "A"), ("format", "B")]
    [("format", "B"), ("timezone", "A")] (by decide) (by decide)
  exact ⟨h.1, by decide⟩

/-! ## UTC offset display string: claim C6 -/

/-- C6: `calculateUTCOffset` renders exactly the spec's `UTC±HH:MM` format —
sign by `offset ≥ 0`, `floor(|offset| / 60)` and `|offset| mod 60`, each
zero-padded to two digits. -/
theorem C6_utc_offset_format (offsetInMinutes : Int) :
    calculateUTCOffset offsetInMinutes = specUTCOffsetFormat offsetInMinutes ∧
    calculateUTCOffset 780 = "UTC+13:00" ∧
    calculateUTCOffset (-90) = "UTC-01:30" ∧
    calculateUTCOffset 0 = "UTC+00:00" := by
  refine ⟨?_, by decide, by decide, by decide⟩
  simp only [calculateUTCOffset, specUTCOffsetFormat, padStart2_jsNatStr]

/-! ## `duration_since_utc`: claim C10 -/

/-- C10: `localNow` and `utcNow` are two views of the same captured instant,
so `localNow.diff(utcNow)` is the zero duration and the field is the
human-readable rendering of 0 milliseconds, whatever the zone offset. -/
theorem C10_duration_since_utc_zero (toHuman : Int → String) (now zoneOffset : Int) :
    duration_since_utc toHuman now zoneOffset = toHuman 0 ∧
    Luxon.diffMillis (Luxon.setZone (Luxon.utc now) zoneOffset) (Luxon.utc now) = 0 := by
  unfold duration_since_utc Luxon.diffMillis Luxon.setZone Luxon.utc
  simp

end TimeSync
